import Mathlib

/-!
# Shallow embedding of `diesel/src/deserialize.rs`

This file embeds the row-deserialization core of the repository: the
`FromSql` scalar-decoder contract with its default `from_nullable_sql`,
the `FromStaticSqlRow` single-value and composite builders, the
`Queryable` adapter path of `FromSqlRow`, the `QueryableByName` named-row
path, and the `StaticallySizedRow::FIELD_COUNT` constant.

Modelling conventions:
* a raw backend payload is an opaque type parameter `Raw`;
* a field's value is `Option Raw` (`none` is SQL null);
* a positional row is `List (Option Raw)`; `row.get? i` is the source's
  `row.get(i)` (`none` when the position does not exist);
* a named row is `List (String × Option Raw)` with exact-match name lookup;
* the `Box<dyn Error>` failure values are classified by the semantic error
  kinds the code distinguishes (`UnexpectedNullError`, `UnexpectedEndOfRow`,
  column-not-found, and payload conversion errors carrying a message);
* fallible operations return `Except DeserializeError α`.
-/

namespace Diesel

/-- The semantic error kinds produced by the deserialization core:
`UnexpectedNullError`, `UnexpectedEndOfRow`, a named-lookup failure, and a
descriptive payload-conversion failure. -/
inductive DeserializeError where
  | unexpectedNull : DeserializeError
  | unexpectedEndOfRow : DeserializeError
  | columnNotFound : String → DeserializeError
  | conversionError : String → DeserializeError
deriving DecidableEq, Repr

/-- The specialized `Result<T>` alias of `deserialize.rs`. -/
abbrev DResult (α : Type) : Type := Except DeserializeError α

/-- The `FromSql<A, DB>` contract: a required `from_sql` on a present
payload and a (possibly overridden) `from_nullable_sql` on an optional
payload. -/
structure FromSql (Raw T : Type) where
  from_sql : Raw → DResult T
  from_nullable_sql : Option Raw → DResult T

/-- A `FromSql` instance that keeps the trait's default `from_nullable_sql`:
`Some bytes => Self::from_sql(bytes)`, `None => Err(UnexpectedNullError)`
(source lines 326–331). -/
def FromSql.mkDefault {Raw T : Type} (f : Raw → DResult T) : FromSql Raw T where
  from_sql := f
  from_nullable_sql := fun bytes =>
    match bytes with
    | some b => f b
    | none => .error .unexpectedNull

/-- Modelled from the spec: types that can natively represent "no value"
(the optional wrapper) override `from_nullable_sql` to succeed on absence
with the "no value" representation; on a present payload they decode the
inner value. The concrete `impl FromSql<Nullable<ST>, DB> for Option<T>`
is not part of the shown source. -/
def FromSql.optionOverride {Raw T : Type} (d : FromSql Raw T) : FromSql Raw (Option T) where
  from_sql := fun b =>
    match d.from_sql b with
    | .ok v => .ok (some v)
    | .error e => .error e
  from_nullable_sql := fun bytes =>
    match bytes with
    | none => .ok none
    | some b =>
      match d.from_sql b with
      | .ok v => .ok (some v)
      | .error e => .error e

/-- The `FromStaticSqlRow<ST, DB>` implementation for a `SingleValue`
logical tag (source lines 407–412): read the field at position 0, fail
with `UnexpectedEndOfRow` if the row has no such field, otherwise apply
`from_nullable_sql` to the field's value. -/
def singleBuildFromRow {Raw T : Type} (d : FromSql Raw T) (row : List (Option Raw)) :
    DResult T :=
  match row.get? 0 with
  | none => .error .unexpectedEndOfRow
  | some field => d.from_nullable_sql field

/-- Modelled from the spec: the tuple `FromStaticSqlRow` implementations
(macro-generated in `type_impls/tuples.rs`, not part of the shown source)
decode positions `0..N` in order against the per-slot nullable-aware
decoders, failing with `UnexpectedEndOfRow` at a missing position and
short-circuiting on the first failure. Slot `k` consumes the field at
position `k` of the row; extra fields beyond the declared width are not
inspected. -/
def decodeSlots {Raw V : Type} :
    List (Option Raw → DResult V) → List (Option Raw) → DResult (List V)
  | [], _ => .ok []
  | _ :: _, [] => .error .unexpectedEndOfRow
  | d :: ds, f :: rest =>
    match d f with
    | .error e => .error e
    | .ok v =>
      match decodeSlots ds rest with
      | .error e => .error e
      | .ok vs => .ok (v :: vs)

/-- The `Queryable<ST, DB>` contract (source lines 146–157): an
intermediate row type together with an infallible `build` adapter. -/
structure Queryable (I T : Type) where
  build : I → T

/-- The blanket `FromSqlRow` implementation for `Queryable` targets
(source lines 395–398): decode the intermediate row via
`FromStaticSqlRow::build_from_row`, propagate its error with `?`, and
apply `T::build` to the successful result. -/
def queryableBuildFromRow {Raw I T : Type} (rowDecode : List (Option Raw) → DResult I)
    (q : Queryable I T) (row : List (Option Raw)) : DResult T :=
  match rowDecode row with
  | .error e => .error e
  | .ok i => .ok (q.build i)

/-- The blanket `FromSqlRow<Untyped, DB>` implementation for
`QueryableByName` targets (source lines 364–366): delegate to
`T::build(row)` unchanged. -/
def untypedBuildFromRow {NamedRowT T : Type} (build : NamedRowT → DResult T)
    (row : NamedRowT) : DResult T :=
  build row

/-- Exact-match lookup of a column name in a named row, returning the
field's value for the first column with that name. -/
def namedLookup {Raw : Type} (n : String) : List (String × Option Raw) → Option (Option Raw)
  | [] => none
  | (m, v) :: rest => if m = n then some v else namedLookup n rest

/-- Modelled from the spec: a derived `QueryableByName::build` (the derive
output is not part of the shown source) decodes each declared struct field
by exact-match lookup of its column name in the named row, applying the
field's nullable-aware decoder, failing with a column-not-found error when
the name is absent, and short-circuiting on the first failure. -/
def namedBuild {Raw V : Type} :
    List (String × (Option Raw → DResult V)) → List (String × Option Raw) → DResult (List V)
  | [], _ => .ok []
  | (n, d) :: fields, row =>
    match namedLookup n row with
    | none => .error (.columnNotFound n)
    | some v =>
      match d v with
      | .error e => .error e
      | .ok x =>
        match namedBuild fields row with
        | .error e => .error e
        | .ok xs => .ok (x :: xs)

/-- Modelled from the spec: `TupleSize::SIZE` (declared in
`type_impls/tuples.rs`, not part of the shown source) is the declared
field count of a composite logical tag; here a composite tag is
represented by its ordered list of per-slot decoders. -/
def tupleSize {Raw V : Type} (st : List (Option Raw → DResult V)) : Nat :=
  st.length

/-- The blanket `StaticallySizedRow` implementation (source lines 435–441):
`FIELD_COUNT` for a `Queryable` target over composite tag `ST` is
`<ST as TupleSize>::SIZE`, ignoring the target type entirely. -/
def fieldCount {Raw V I T : Type} (st : List (Option Raw → DResult V))
    (_q : Queryable I T) : Nat :=
  tupleSize st

end Diesel

namespace DieselTest

open Diesel

/-- A concrete miniature backend value, used to exercise the generic
definitions on concrete inputs. -/
inductive PgValue where
  | intVal : Int → PgValue
  | textVal : String → PgValue
deriving DecidableEq, Repr

/-- Modelled from the spec: the backend encoder for integer payloads. -/
def encodeInt (n : Int) : PgValue := .intVal n

/-- Modelled from the spec: the backend encoder for text payloads. -/
def encodeText (s : String) : PgValue := .textVal s

/-- The integer scalar decoder over the miniature backend. -/
def intFromSql : PgValue → DResult Int
  | .intVal n => .ok n
  | .textVal _ => .error (.conversionError "expected integer payload")

/-- The text scalar decoder over the miniature backend. -/
def textFromSql : PgValue → DResult String
  | .textVal s => .ok s
  | .intVal _ => .error (.conversionError "expected text payload")

/-- The integer decoder packaged with the default nullable handling. -/
def dInt : FromSql PgValue Int := FromSql.mkDefault intFromSql

/-- The text decoder packaged with the default nullable handling. -/
def dText : FromSql PgValue String := FromSql.mkDefault textFromSql

/-- The nullable-aware integer decoder, as a bare slot decoder for
composite examples. -/
def dIntN : Option PgValue → DResult Int := dInt.from_nullable_sql

/-- A trivial `Queryable` target whose adapter is the identity. -/
def qListId : Queryable (List Int) (List Int) := ⟨id⟩

end DieselTest

section Theorems

open Diesel DieselTest

/-- Unfolding equation for `namedLookup` on a cons cell. -/
theorem namedLookup_cons {Raw : Type} (n m : String) (v : Option Raw)
    (l : List (String × Option Raw)) :
    namedLookup n ((m, v) :: l) = if m = n then some v else namedLookup n l :=
  rfl

/-- A successful composite decode forces the row to be at least as long as
the slot list, and produces exactly one value per slot. -/
theorem decodeSlots_ok_length {Raw V : Type} :
    ∀ (ds : List (Option Raw → DResult V)) (row : List (Option Raw)) (vs : List V),
      decodeSlots ds row = .ok vs → ds.length ≤ row.length ∧ vs.length = ds.length
  | [], _, vs, h => by
      simp only [decodeSlots, Except.ok.injEq] at h
      subst h
      simp
  | _ :: _, [], _, h => by
      simp [decodeSlots] at h
  | d :: ds, f :: rest, vs, h => by
      simp only [decodeSlots] at h
      cases hd : d f with
      | error e => rw [hd] at h; exact absurd h (by simp)
      | ok v =>
        rw [hd] at h
        cases hrec : decodeSlots ds rest with
        | error e => rw [hrec] at h; exact absurd h (by simp)
        | ok vs' =>
          rw [hrec] at h
          simp only [Except.ok.injEq] at h
          subst h
          obtain ⟨h₁, h₂⟩ := decodeSlots_ok_length ds rest vs' hrec
          exact ⟨by simpa using Nat.succ_le_succ h₁, by simp [h₂]⟩

/-- Claim C2: the default `from_nullable_sql` fails with `UnexpectedNull`
on an absent value and returns exactly the result of `from_sql` on a
present value; the optional-wrapper override instead succeeds on absence
with the "no value" representation. -/
theorem c2_default_nullable_decode {Raw T : Type} :
    (∀ f : Raw → DResult T,
      (FromSql.mkDefault f).from_nullable_sql none = .error .unexpectedNull) ∧
    (∀ (f : Raw → DResult T) (b : Raw),
      (FromSql.mkDefault f).from_nullable_sql (some b) = (FromSql.mkDefault f).from_sql b) ∧
    (∀ d : FromSql Raw T,
      (FromSql.optionOverride d).from_nullable_sql none = .ok none) :=
  ⟨fun _ => rfl, fun _ _ => rfl, fun _ => rfl⟩

/-- Claim C3: the `Queryable` path of `build_from_row` equals decoding the
intermediate row and mapping the pure adapter `T::build` over the result,
so an intermediate decode error is propagated unchanged and `build` is
never applied to a failure. -/
theorem c3_queryable_path {Raw I T : Type} (rowDecode : List (Option Raw) → DResult I)
    (q : Queryable I T) (row : List (Option Raw)) :
    queryableBuildFromRow rowDecode q row = Except.map q.build (rowDecode row) := by
  unfold queryableBuildFromRow
  cases rowDecode row <;> rfl

/-- Claim C5: for `QueryableByName` targets, `FromSqlRow::build_from_row`
on an `Untyped` row is exactly `QueryableByName::build(row)`, with no
additional validation or adaptation step. -/
theorem c5_untyped_dispatch {NamedRowT T : Type} (build : NamedRowT → DResult T)
    (row : NamedRowT) :
    untypedBuildFromRow build row = build row :=
  rfl

/-- Claim C8: round-trip law on the modelled backend: decoding the
encoding of a non-null payload succeeds and returns the payload, for each
supported primitive type. -/
theorem c8_roundtrip :
    (∀ n : Int, intFromSql (encodeInt n) = .ok n) ∧
    (∀ s : String, textFromSql (encodeText s) = .ok s) :=
  ⟨fun _ => rfl, fun _ => rfl⟩

/-- Claim C10: `FIELD_COUNT` is determined solely by the composite tag:
any two `Queryable` targets over the same tag expose the same value. -/
theorem c10_field_count_target_independent {Raw V I₁ T₁ I₂ T₂ : Type}
    (st : List (Option Raw → DResult V)) (q₁ : Queryable I₁ T₁) (q₂ : Queryable I₂ T₂) :
    fieldCount st q₁ = fieldCount st q₂ :=
  rfl

end Theorems

section CompositeTheorems

open Diesel DieselTest

/-- The first failing slot of a composite decode determines the overall
error, regardless of the remaining decoders and fields. -/
theorem decodeSlots_first_failure {Raw V : Type} :
    ∀ (ds₁ : List (Option Raw → DResult V)) (row₁ : List (Option Raw)) (vs : List V)
      (d : Option Raw → DResult V) (ds₂ : List (Option Raw → DResult V))
      (f : Option Raw) (row₂ : List (Option Raw)) (e : DeserializeError),
      row₁.length = ds₁.length → decodeSlots ds₁ row₁ = .ok vs → d f = .error e →
      decodeSlots (ds₁ ++ d :: ds₂) (row₁ ++ f :: row₂) = .error e
  | [], [], _, d, ds₂, f, row₂, e, _, _, hf => by
      simp [decodeSlots, hf]
  | [], _ :: _, _, _, _, _, _, _, hlen, _, _ => by simp at hlen
  | _ :: _, [], _, _, _, _, _, _, hlen, _, _ => by simp at hlen
  | d₀ :: ds₁, f₀ :: row₁, vs, d, ds₂, f, row₂, e, hlen, hok, hf => by
      simp only [decodeSlots] at hok
      cases h₀ : d₀ f₀ with
      | error e₀ => rw [h₀] at hok; exact absurd hok (by simp)
      | ok v₀ =>
        rw [h₀] at hok
        cases hrec : decodeSlots ds₁ row₁ with
        | error e' => rw [hrec] at hok; exact absurd hok (by simp)
        | ok vs' =>
          have hlen' : row₁.length = ds₁.length := by simpa using hlen
          have htail :=
            decodeSlots_first_failure ds₁ row₁ vs' d ds₂ f row₂ e hlen' hrec hf
          simp [decodeSlots, h₀, htail]

/-- Decoding a row shorter than the slot list fails with
`UnexpectedEndOfRow`, provided no earlier slot fails on its own. -/
theorem decodeSlots_short_row {Raw V : Type} :
    ∀ (ds : List (Option Raw → DResult V)) (row : List (Option Raw)),
      row.length < ds.length →
      (∀ (j : Nat) (f : Option Raw) (d : Option Raw → DResult V),
        row.get? j = some f → ds.get? j = some d → ∃ v, d f = .ok v) →
      decodeSlots ds row = .error .unexpectedEndOfRow
  | [], _, hlen, _ => by simp at hlen
  | _ :: _, [], _, _ => rfl
  | d :: ds, f :: rest, hlen, hsucc => by
      obtain ⟨v, hv⟩ := hsucc 0 f d rfl rfl
      have hlen' : rest.length < ds.length := by simpa using hlen
      have hsucc' : ∀ (j : Nat) (f' : Option Raw) (d' : Option Raw → DResult V),
          rest.get? j = some f' → ds.get? j = some d' → ∃ v', d' f' = .ok v' :=
        fun j f' d' hj hd => hsucc (j + 1) f' d' hj hd
      have htail := decodeSlots_short_row ds rest hlen' hsucc'
      simp [decodeSlots, hv, htail]

/-- Composite decoding only inspects the first `N` positions: rows that
agree there decode identically. -/
theorem decodeSlots_agree {Raw V : Type} :
    ∀ (ds : List (Option Raw → DResult V)) (r₁ r₂ : List (Option Raw)),
      (∀ j, j < ds.length → r₁.get? j = r₂.get? j) →
      decodeSlots ds r₁ = decodeSlots ds r₂
  | [], _, _, _ => rfl
  | d :: ds, r₁, r₂, h => by
      have h0 := h 0 (by simp)
      cases r₁ with
      | nil =>
        cases r₂ with
        | nil => rfl
        | cons g r₂' => simp [List.get?] at h0
      | cons f r₁' =>
        cases r₂ with
        | nil => simp [List.get?] at h0
        | cons g r₂' =>
          simp only [List.get?, Option.some.injEq] at h0
          subst h0
          have hrec := decodeSlots_agree ds r₁' r₂'
            (fun j hj => h (j + 1) (by simpa using Nat.succ_lt_succ hj))
          simp [decodeSlots, hrec]

/-- Claim C1: static row decoding follows the declared shape. For a
single-value tag, `build_from_row` reads the field at position 0, fails
with `UnexpectedEndOfRow` when the row has no field 0, and otherwise
applies the nullable-aware decode to that field's value; for a composite
tag, slots are decoded in order and the first failing slot's error is the
overall result, regardless of the remaining slots — no partial composite
is returned. -/
theorem c1_static_row_shape (Raw T V : Type) :
    (∀ (d : FromSql Raw T) (row : List (Option Raw)),
      (row.get? 0 = none → singleBuildFromRow d row = .error .unexpectedEndOfRow) ∧
      (∀ f, row.get? 0 = some f → singleBuildFromRow d row = d.from_nullable_sql f)) ∧
    (∀ (ds₁ : List (Option Raw → DResult V)) (d : Option Raw → DResult V)
      (ds₂ : List (Option Raw → DResult V)) (row₁ : List (Option Raw)) (f : Option Raw)
      (row₂ : List (Option Raw)) (vs : List V) (e : DeserializeError),
      row₁.length = ds₁.length → decodeSlots ds₁ row₁ = .ok vs → d f = .error e →
      decodeSlots (ds₁ ++ d :: ds₂) (row₁ ++ f :: row₂) = .error e) := by
  constructor
  · intro d row
    constructor
    · intro h
      unfold singleBuildFromRow
      rw [h]
    · intro f h
      unfold singleBuildFromRow
      rw [h]
  · intro ds₁ d ds₂ row₁ f row₂ vs e hlen hok hf
    exact decodeSlots_first_failure ds₁ row₁ vs d ds₂ f row₂ e hlen hok hf

end CompositeTheorems

section WidthTheorems

open Diesel DieselTest

/-- Claim C4: a row shorter than the composite width fails with
`UnexpectedEndOfRow` (provided no earlier slot fails on its own), and the
decode result depends only on the first `N` positions — extra row width
is silently ignored by the builder. -/
theorem c4_composite_width (Raw V : Type) :
    (∀ (ds : List (Option Raw → DResult V)) (row : List (Option Raw)),
      row.length < ds.length →
      (∀ (j : Nat) (f : Option Raw) (d : Option Raw → DResult V),
        row.get? j = some f → ds.get? j = some d → ∃ v, d f = .ok v) →
      decodeSlots ds row = .error .unexpectedEndOfRow) ∧
    (∀ (ds : List (Option Raw → DResult V)) (r₁ r₂ : List (Option Raw)),
      (∀ j, j < ds.length → r₁.get? j = r₂.get? j) →
      decodeSlots ds r₁ = decodeSlots ds r₂) :=
  ⟨decodeSlots_short_row, decodeSlots_agree⟩

/-- Witness for C4 at concrete inputs: a one-field row against a
two-slot tag fails with `UnexpectedEndOfRow`, and two two-field rows that
agree on position 0 decode identically under a one-slot tag. -/
theorem c4_composite_width_witness :
    decodeSlots [dIntN, dIntN] [some (PgValue.intVal 1)] = .error .unexpectedEndOfRow ∧
    decodeSlots [dIntN] [some (PgValue.intVal 1), some (PgValue.intVal 2)] =
      decodeSlots [dIntN] [some (PgValue.intVal 1), none] := by
  have h := c4_composite_width PgValue Int
  constructor
  · refine h.1 [dIntN, dIntN] [some (PgValue.intVal 1)] (by simp) ?_
    intro j f d hj hd
    cases j with
    | zero =>
      simp only [List.get?, Option.some.injEq] at hj hd
      subst hj
      subst hd
      exact ⟨1, rfl⟩
    | succ k => cases k <;> simp [List.get?] at hj
  · refine h.2 [dIntN] _ _ (fun j hj => ?_)
    have hj0 : j = 0 := Nat.lt_one_iff.mp (by simpa using hj)
    subst hj0
    rfl

/-- Claim C6: the field-count witness equals the declared tuple size of
the composite tag, and it soundly bounds row width: a successful composite
decode needs at least `FIELD_COUNT` fields and yields exactly
`FIELD_COUNT` values. -/
theorem c6_field_count {Raw V I T : Type} (st : List (Option Raw → DResult V))
    (q : Queryable I T) :
    fieldCount st q = tupleSize st ∧
    (∀ (row : List (Option Raw)) (vs : List V), decodeSlots st row = .ok vs →
      fieldCount st q ≤ row.length ∧ vs.length = fieldCount st q) := by
  refine ⟨rfl, fun row vs h => ?_⟩
  simpa [fieldCount, tupleSize] using decodeSlots_ok_length st row vs h

/-- Witness for C6 at concrete inputs: a two-slot tag decodes a two-field
row successfully and its field count bounds the row width. -/
theorem c6_field_count_witness :
    decodeSlots [dIntN, dIntN] [some (PgValue.intVal 1), some (PgValue.intVal 2)] =
      .ok [1, 2] ∧
    fieldCount [dIntN, dIntN] qListId ≤ 2 := by
  have h := c6_field_count [dIntN, dIntN] qListId
  exact ⟨rfl, by
    simpa using
      (h.2 [some (PgValue.intVal 1), some (PgValue.intVal 2)] [1, 2] rfl).1⟩

end WidthTheorems

section NamedRowTheorems

open Diesel DieselTest

/-- Witness for C1 at concrete inputs: an empty row fails the single-value
path with `UnexpectedEndOfRow`, and a failing middle slot's error is the
overall composite result. -/
theorem c1_static_row_shape_witness :
    singleBuildFromRow dInt ([] : List (Option PgValue)) = .error .unexpectedEndOfRow ∧
    decodeSlots [dIntN, dIntN, dIntN]
      [some (PgValue.intVal 1), none, some (PgValue.intVal 2)] =
      .error .unexpectedNull := by
  have h := c1_static_row_shape PgValue Int Int
  refine ⟨(h.1 dInt []).1 rfl, ?_⟩
  have h2 := h.2 [dIntN] dIntN [dIntN] [some (PgValue.intVal 1)] none
    [some (PgValue.intVal 2)] [1] .unexpectedNull rfl rfl rfl
  simpa using h2

/-- Exact-match lookup is invariant under permutations of a named row
with pairwise-distinct column names. -/
theorem namedLookup_perm {Raw : Type} :
    ∀ {r₁ r₂ : List (String × Option Raw)}, r₁.Perm r₂ →
      (r₁.map Prod.fst).Nodup → ∀ n, namedLookup n r₁ = namedLookup n r₂ := by
  intro r₁ r₂ h
  induction h with
  | nil => intro _ _; rfl
  | cons x h ih =>
    intro hnd n
    obtain ⟨m, v⟩ := x
    simp only [List.map_cons, List.nodup_cons] at hnd
    rw [namedLookup_cons, namedLookup_cons, ih hnd.2 n]
  | swap x y l =>
    intro hnd n
    obtain ⟨mx, vx⟩ := x
    obtain ⟨my, vy⟩ := y
    simp only [List.map_cons, List.nodup_cons, List.mem_cons] at hnd
    have hne : my ≠ mx := fun hmm => hnd.1 (Or.inl hmm)
    by_cases h1 : my = n
    · have h2 : mx ≠ n := fun h2 => hne (h1.trans h2.symm)
      simp [namedLookup_cons, h1, h2]
    · simp [namedLookup_cons, h1]
  | trans h₁ h₂ ih₁ ih₂ =>
    intro hnd n
    exact (ih₁ hnd n).trans (ih₂ ((h₁.map Prod.fst).nodup hnd) n)

/-- The named-row builder only observes a row through name lookup: rows
with identical lookup behavior decode identically. -/
theorem namedBuild_lookup_congr {Raw V : Type} :
    ∀ (fields : List (String × (Option Raw → DResult V)))
      (r₁ r₂ : List (String × Option Raw)),
      (∀ n, namedLookup n r₁ = namedLookup n r₂) →
      namedBuild fields r₁ = namedBuild fields r₂
  | [], _, _, _ => rfl
  | (n, d) :: fields, r₁, r₂, h => by
      have hrec := namedBuild_lookup_congr fields r₁ r₂ h
      simp only [namedBuild]
      rw [h n, hrec]

/-- Claim C7: named-row decoding is order-independent — permuting the
columns of a named row with distinct column names yields an identical
decoded result — and a missing expected column fails with a
column-not-found error, an error kind distinct from `UnexpectedEndOfRow`. -/
theorem c7_named_row_order_independent (Raw V : Type) :
    (∀ (fields : List (String × (Option Raw → DResult V)))
      (r₁ r₂ : List (String × Option Raw)),
      r₁.Perm r₂ → (r₁.map Prod.fst).Nodup →
      namedBuild fields r₁ = namedBuild fields r₂) ∧
    (∀ (n : String) (d : Option Raw → DResult V)
      (fields : List (String × (Option Raw → DResult V)))
      (row : List (String × Option Raw)),
      namedLookup n row = none →
      namedBuild ((n, d) :: fields) row = .error (.columnNotFound n)) ∧
    (∀ n : String,
      (DeserializeError.columnNotFound n) ≠ DeserializeError.unexpectedEndOfRow) := by
  refine ⟨?_, ?_, ?_⟩
  · intro fields r₁ r₂ hperm hnd
    exact namedBuild_lookup_congr fields r₁ r₂ (namedLookup_perm hperm hnd)
  · intro n d fields row h
    simp [namedBuild, h]
  · intro n hn
    exact DeserializeError.noConfusion hn

/-- Witness for C7 at concrete inputs: swapping the two columns of a named
row leaves the decoded result unchanged, and a row without the expected
column fails with a column-not-found error. -/
theorem c7_named_row_witness :
    namedBuild [("id", dIntN)]
      [("id", some (PgValue.intVal 1)), ("name", some (PgValue.textVal "Sean"))] =
      namedBuild [("id", dIntN)]
      [("name", some (PgValue.textVal "Sean")), ("id", some (PgValue.intVal 1))] ∧
    namedBuild [("id", dIntN)] ([] : List (String × Option PgValue)) =
      .error (.columnNotFound "id") := by
  have h := c7_named_row_order_independent PgValue Int
  refine ⟨h.1 [("id", dIntN)] _ _ (List.Perm.swap _ _ _) (by decide),
    h.2.1 "id" dIntN [] [] rfl⟩

end NamedRowTheorems

section ErrorKindTheorems

open Diesel DieselTest

/-- Claim C9: in the single-value static path with the default nullable
decode, assuming the scalar decoder itself only produces conversion
errors, `build_from_row` fails with `UnexpectedEndOfRow` exactly when the
row has no field 0, fails with `UnexpectedNull` exactly when field 0
exists but is null, and on a present non-null payload returns exactly the
result of `from_sql` on it. -/
theorem c9_error_kind_discipline {Raw T : Type} (f : Raw → DResult T)
    (row : List (Option Raw))
    (hf : ∀ (b : Raw) (e : DeserializeError),
      f b = .error e → ∃ msg, e = .conversionError msg) :
    (singleBuildFromRow (FromSql.mkDefault f) row = .error .unexpectedEndOfRow ↔
      row.get? 0 = none) ∧
    (singleBuildFromRow (FromSql.mkDefault f) row = .error .unexpectedNull ↔
      row.get? 0 = some none) ∧
    (∀ b : Raw, row.get? 0 = some (some b) →
      singleBuildFromRow (FromSql.mkDefault f) row = f b) := by
  rcases hrow : row.get? 0 with _ | (_ | b)
  · have hres : singleBuildFromRow (FromSql.mkDefault f) row =
        .error .unexpectedEndOfRow := by
      unfold singleBuildFromRow
      rw [hrow]
    refine ⟨⟨fun _ => rfl, fun _ => hres⟩, ⟨fun h => ?_, fun h => ?_⟩, fun b hb => ?_⟩
    · rw [hres] at h
      simp at h
    · simp at h
    · simp at hb
  · have hres : singleBuildFromRow (FromSql.mkDefault f) row =
        .error .unexpectedNull := by
      unfold singleBuildFromRow
      rw [hrow]
      rfl
    refine ⟨⟨fun h => ?_, fun h => ?_⟩, ⟨fun _ => rfl, fun _ => hres⟩, fun b hb => ?_⟩
    · rw [hres] at h
      simp at h
    · simp at h
    · simp at hb
  · have hres : singleBuildFromRow (FromSql.mkDefault f) row = f b := by
      unfold singleBuildFromRow
      rw [hrow]
      rfl
    refine ⟨⟨fun h => ?_, fun h => ?_⟩, ⟨fun h => ?_, fun h => ?_⟩, fun b' hb' => ?_⟩
    · rw [hres] at h
      obtain ⟨msg, hmsg⟩ := hf b _ h
      exact DeserializeError.noConfusion hmsg
    · simp at h
    · rw [hres] at h
      obtain ⟨msg, hmsg⟩ := hf b _ h
      exact DeserializeError.noConfusion hmsg
    · simp at h
    · simp only [Option.some.injEq] at hb'
      subst hb'
      exact hres

/-- Witness for C9 at a concrete input: the integer decoder only produces
conversion errors, and decoding a one-field row whose field is null fails
with `UnexpectedNull`. -/
theorem c9_error_kind_witness :
    singleBuildFromRow (FromSql.mkDefault intFromSql) [(none : Option PgValue)] =
      .error .unexpectedNull := by
  have hf : ∀ (b : PgValue) (e : DeserializeError),
      intFromSql b = .error e → ∃ msg, e = .conversionError msg := by
    intro b e hb
    cases b with
    | intVal n => simp [intFromSql] at hb
    | textVal s =>
      simp only [intFromSql, Except.error.injEq] at hb
      exact ⟨"expected integer payload", hb.symm⟩
  exact ((c9_error_kind_discipline intFromSql [none] hf).2.1).mpr rfl

end ErrorKindTheorems
